import Mathlib

/- Verification of the drop-rate modifier resolver, probability engine,
kill-statistics calculator and Monte Carlo trial loop of the
simulador-backend repository (src/main.py), via a shallow embedding in
Lean 4.  Python floats are modelled as rationals, Python dicts as
association lists with dict-style update, and the request models as
their declared field lists. -/

namespace DropSim

/-- A Python dict mapping string keys to numeric values, modelled as an
association list in insertion order. -/
abbrev PMap := List (String × ℚ)

/-- Dict lookup: value of the first entry with the given key. -/
def getKey (m : PMap) (k : String) : Option ℚ :=
  (m.find? (fun kv => decide (kv.1 = k))).map (fun kv => kv.2)

/-- Dict assignment `m[k] = v`: replaces the value at an existing key in
place, otherwise appends the new entry at the end (Python dict update
semantics). -/
def setKey (m : PMap) (k : String) (v : ℚ) : PMap :=
  if m.any (fun kv => decide (kv.1 = k)) then
    m.map (fun kv => if kv.1 = k then (k, v) else kv)
  else
    m ++ [(k, v)]

/-- Dict deletion `del m[k]` (removes the entry with the given key). -/
def delKey (m : PMap) (k : String) : PMap :=
  m.filter (fun kv => decide (¬ kv.1 = k))

/-- Sum of all values of the dict: `sum(m.values())`. -/
def sumVals (m : PMap) : ℚ :=
  (m.map (fun kv => kv.2)).sum

/-- Group 1 big consumables, src/main.py lines 35-40: the highest
selected value wins. -/
def BIG_CONS : PMap :=
  [("calice", 265), ("calice2", 240), ("chicle", 200), ("chiclete", 100)]

/-- Conditionally summed general consumables, src/main.py lines 43-50. -/
def GENERAL_CONS : PMap :=
  [("lata", 20), ("revitalizadora", 20), ("drop_pot", 25),
   ("fusion", 25), ("doador", 35), ("doador_rmt", 35)]

/-- Final multiplicative-bonus consumables, src/main.py lines 53-59. -/
def FINAL_CONS : PMap :=
  [("black", 6), ("ativador", 5), ("carnavalesco", 2),
   ("champs", 6), ("amantes", 4)]

/-- `max((BIG_CONS[c] for c in selected if c in BIG_CONS), default=0.0)`:
the maximum value among selected big consumables, 0 when none is
selected (all table values are positive). -/
def best_big (sel : List String) : ℚ :=
  BIG_CONS.foldr (fun kv acc => if kv.1 ∈ sel then max kv.2 acc else acc) 0

/-- One iteration of the `for key, val in GENERAL_CONS.items()` loop
(src/main.py lines 230-241 = 335-345 = 422-432): skip unselected keys;
lata/revitalizadora are dropped when a calice was used, drop_pot is
dropped when calice itself was used, everything else is assigned. The
used_calice / used_big flags are passed in as precomputed Booleans. -/
def gen_step (sel : List String) (used_calice used_big : Bool)
    (m : PMap) (kv : String × ℚ) : PMap :=
  if kv.1 ∈ sel then
    if kv.1 = "lata" ∨ kv.1 = "revitalizadora" then
      if used_big then m else setKey m kv.1 kv.2
    else if kv.1 = "drop_pot" then
      if used_calice then m else setKey m kv.1 kv.2
    else
      setKey m kv.1 kv.2
  else m

/-- Consumable processing of the general modifier map, shared verbatim by
calculate_all_drops (lines 215-241), calculate_monster_table (lines
324-345) and drop_calculate (lines 412-432): add the best big-consumable
value under the synthetic key, then run the GENERAL_CONS loop. -/
def resolve_general (gm : PMap) (sel : List String) : PMap :=
  let bigv := best_big sel
  let m0 := if 0 < bigv then setKey gm "consumable_big" bigv else gm
  GENERAL_CONS.foldl
    (gen_step sel (decide ("calice" ∈ sel))
      (decide ("calice" ∈ sel ∨ "calice2" ∈ sel))) m0

/-- One iteration of the FINAL_CONS loop (lines 245-247 = 348-350 =
434-436): selected final consumables are assigned under a prefixed key. -/
def final_step (sel : List String) (m : PMap) (kv : String × ℚ) : PMap :=
  if kv.1 ∈ sel then setKey m ("final_" ++ kv.1) kv.2 else m

/-- Final-consumable processing of the final modifier map. -/
def resolve_final_cons (fm : PMap) (sel : List String) : PMap :=
  FINAL_CONS.foldl (final_step sel) fm

/-- Advancement mastery tiers in declared order, src/main.py line 438. -/
def ADV_MASTERY : PMap :=
  [("adv_1", 1), ("adv_2", 3), ("adv_3", 5), ("adv_4", 8)]

/-- Birth mastery tiers in declared order, src/main.py line 439. -/
def BIRTH_MASTERY : PMap :=
  [("birth_1", 1), ("birth_2", 2), ("birth_3", 3), ("birth_4", 5)]

/-- Reborn mastery tiers in declared order, src/main.py line 440. -/
def REBORN_MASTERY : PMap :=
  [("reborn_1", 1), ("reborn_2", 2), ("reborn_3", 3),
   ("reborn_4", 5), ("reborn_5", 8)]

/-- Value of the first tier of a mastery family, in declared order, that
is selected (the for-loop with break of src/main.py lines 442-455). -/
def first_tier (fam : PMap) (sel : List String) : Option ℚ :=
  (fam.find? (fun kv => decide (kv.1 ∈ sel))).map (fun kv => kv.2)

/-- Record the first selected tier of one mastery family under its
per-family key, if any tier is selected. -/
def set_mastery (m : PMap) (key : String) (fam : PMap)
    (sel : List String) : PMap :=
  match first_tier fam sel with
  | some v => setKey m key v
  | none => m

/-- Final-modifier processing of drop_calculate (lines 434-455):
FINAL_CONS loop followed by the three mastery-family loops. -/
def resolve_final (fm : PMap) (sel : List String) : PMap :=
  set_mastery
    (set_mastery
      (set_mastery (resolve_final_cons fm sel) "adv_mastery" ADV_MASTERY sel)
      "birth_mastery" BIRTH_MASTERY sel)
    "reborn_mastery" REBORN_MASTERY sel

/-- apply_caps, src/main.py lines 295-300. -/
def apply_caps (p_base_percent p_final_percent : ℚ) : ℚ :=
  if p_base_percent ≤ 90 then min p_final_percent 90
  else if p_base_percent = 100 then 100
  else p_final_percent

/-- The two-stage pipeline followed by capping (lines 271-273 = 384-386 =
460-462): intermediate percentage, final percentage, caps. -/
def pipeline_final (p_base B_general B_final : ℚ) : ℚ :=
  let p_inter := p_base * (1 + B_general / 100)
  apply_caps p_base (p_inter * (1 + B_final / 100))

/-- A catalog item: name, base drop percentage, is_florzinha flag. -/
structure Item where
  name : String
  base_drop_percent : ℚ
  is_florzinha : Bool
deriving DecidableEq

/-- One per-item entry produced by calculate_all_drops
(src/main.py lines 265-284). -/
structure DropEntry where
  item_id : String
  base_drop_percent : ℚ
  p_inter_percent : ℚ
  p_final_percent : ℚ
  is_florzinha : Bool
deriving DecidableEq

/-- Per-item calculation of calculate_all_drops (lines 265-284): the
catalog base percentage is run through the pipeline; the is_florzinha
flag is only echoed in the entry. -/
def calc_item (B_general B_final : ℚ) (iid : String) (it : Item) :
    DropEntry :=
  let p_base := it.base_drop_percent
  let p_inter := p_base * (1 + B_general / 100)
  let p_final := p_inter * (1 + B_final / 100)
  { item_id := iid
    base_drop_percent := p_base
    p_inter_percent := p_inter
    p_final_percent := apply_caps p_base p_final
    is_florzinha := it.is_florzinha }

/-- The dominio reputation gating of calculate_all_drops (lines 249-257)
and calculate_monster_table (lines 353-360): outside the dominio content
the dominio_reputation entry is deleted from the general map. -/
def gate_dominio (cid : String) (m : PMap) : PMap :=
  if cid = "dominio" then m else delKey m "dominio_reputation"

/-- Result of the POST /drop/calculate-all endpoint. -/
structure BatchResult where
  B_general_percent : ℚ
  B_final_percent : ℚ
  drops : List DropEntry
deriving DecidableEq

/-- calculate_all_drops, src/main.py lines 198-292, given the level's
drop id list and the item catalog: resolve the consumables, gate the
dominio reputation, sum the aggregates and run every item of the level
through the pipeline. -/
def calculate_all_drops (cid : String) (drop_ids : List String)
    (items : String → Option Item) (gm fm : PMap)
    (consumables : List String) : BatchResult :=
  let general_mods := gate_dominio cid (resolve_general gm consumables)
  let final_mods := resolve_final_cons fm consumables
  let B_general := sumVals general_mods
  let B_final := sumVals final_mods
  { B_general_percent := B_general
    B_final_percent := B_final
    drops := drop_ids.filterMap
      (fun iid => (items iid).map (calc_item B_general B_final iid)) }

/-- Per-monster calculated rates of one item entry of
calculate_monster_table (lines 382-391): for each monster of the level,
the per-monster base rate (default 0) is run through the pipeline. -/
def calc_monster_item (B_general B_final : ℚ) (monsters : List String)
    (rates : String → ℚ) : List (String × ℚ × ℚ) :=
  monsters.map (fun mid =>
    let p_base := rates mid
    let p_inter := p_base * (1 + B_general / 100)
    let p_final := p_inter * (1 + B_final / 100)
    (mid, p_base, apply_caps p_base p_final))

/-- Result of the POST /drop/calculate-monster-table endpoint: the two
aggregates and, per item, the list of (monster, base, final) rates. -/
structure MonsterTableResult where
  B_general_percent : ℚ
  B_final_percent : ℚ
  drops : List (String × List (String × ℚ × ℚ))

/-- calculate_monster_table, src/main.py lines 302-402, given the level's
monster list, the drops table (item id to per-monster rates, default 0
for a missing monster) and the item catalog. -/
def calculate_monster_table (cid : String) (monsters : List String)
    (drops_data : List (String × (String → ℚ)))
    (items : String → Option Item) (gm fm : PMap)
    (consumables : List String) : MonsterTableResult :=
  let general_mods := gate_dominio cid (resolve_general gm consumables)
  let final_mods := resolve_final_cons fm consumables
  let B_general := sumVals general_mods
  let B_final := sumVals final_mods
  { B_general_percent := B_general
    B_final_percent := B_final
    drops := drops_data.filterMap (fun entry =>
      if (items entry.1).isSome then
        some (entry.1, calc_monster_item B_general B_final monsters entry.2)
      else none) }

/-- Probability part of the result of POST /drop/calculate
(src/main.py lines 477-490, before the kill statistics). -/
structure CalcResult where
  p_base_percent : ℚ
  B_general_percent : ℚ
  B_final_percent : ℚ
  p_inter_percent : ℚ
  p_final_percent : ℚ
  drop_florzinha_percent : ℚ
  num_kills : ℕ
deriving DecidableEq

/-- The computation of drop_calculate, src/main.py lines 410-470, given
the item's base percentage and the request fields the code reads:
resolve both modifier maps (with mastery tiers, no dominio gating),
sum the aggregates, run the catalog base and the fixed florzinha base
2.0 through the pipeline, and clamp the kill count to at least 1. -/
def drop_calculate_core (p_base : ℚ) (gm fm : PMap)
    (consumables : List String) (num_kills : ℤ) : CalcResult :=
  let general_mods := resolve_general gm consumables
  let final_mods := resolve_final fm consumables
  let B_general := sumVals general_mods
  let B_final := sumVals final_mods
  let p_inter := p_base * (1 + B_general / 100)
  let p_final := apply_caps p_base (p_inter * (1 + B_final / 100))
  let base_flor : ℚ := 2
  let flor_inter := base_flor * (1 + B_general / 100)
  let flor_final := apply_caps base_flor (flor_inter * (1 + B_final / 100))
  { p_base_percent := p_base
    B_general_percent := B_general
    B_final_percent := B_final
    p_inter_percent := p_inter
    p_final_percent := p_final
    drop_florzinha_percent := flor_final
    num_kills := (max 1 num_kills).toNat }

/-- Fields declared by the pydantic request model of POST /drop/calculate
and POST /drop/simulate, src/main.py lines 62-65. -/
def scenario_fields : List String :=
  ["general_mods", "final_mods", "consumables"]

/-- Attributes of the request object read by drop_calculate
(src/main.py lines 406, 412, 416-436, 470) and by drop_simulate
(line 497); reading an attribute that the pydantic model does not
declare raises AttributeError. -/
def drop_calculate_reads : List String :=
  ["item_id", "consumables", "general_mods", "final_mods", "num_kills"]

/-- Attribute read by drop_simulate on top of those of drop_calculate,
src/main.py line 497. -/
def drop_simulate_reads : List String :=
  ["mc_simulations"]

/-- Kill statistics block of the result of POST /drop/calculate,
src/main.py lines 472-475 and 485-488. -/
structure KillStats where
  prob_at_least_one_in_N : ℚ
  expected_drops_in_N : ℚ
  mean_kills_for_one : Option ℚ
  median_kills_for_50pct : Option ℚ
deriving DecidableEq

/-- `math.log`: returns the supplied real logarithm on a positive
argument and raises "math domain error" otherwise.  The logarithm itself
is kept abstract as a function parameter. -/
def pylog (lg : ℚ → ℚ) (x : ℚ) : Except String ℚ :=
  if 0 < x then Except.ok (lg x) else Except.error "math domain error"

/-- Python float division: raises on a zero divisor. -/
def pydiv (a b : ℚ) : Except String ℚ :=
  if b = 0 then Except.error "float division by zero" else Except.ok (a / b)

/-- Kill-statistics computation of drop_calculate, src/main.py lines
472-475, on the final probability fraction p and the clamped kill count
n: the closed forms, with mean and median guarded to None at p ≤ 0 and
the median evaluated through math.log. -/
def kill_stats (lg : ℚ → ℚ) (p : ℚ) (n : ℕ) : Except String KillStats :=
  let prob_at_least_one := 1 - (1 - p) ^ n
  let expected := (n : ℚ) * p
  let mean : Option ℚ := if 0 < p then some (1 / p) else none
  let medianE : Except String (Option ℚ) :=
    if 0 < p then
      match pylog lg (1 / 2) with
      | Except.error e => Except.error e
      | Except.ok a =>
        match pylog lg (1 - p) with
        | Except.error e => Except.error e
        | Except.ok b =>
          match pydiv a b with
          | Except.error e => Except.error e
          | Except.ok m => Except.ok (some m)
    else Except.ok none
  match medianE with
  | Except.error e => Except.error e
  | Except.ok median =>
    Except.ok
      { prob_at_least_one_in_N := prob_at_least_one
        expected_drops_in_N := expected
        mean_kills_for_one := mean
        median_kills_for_50pct := median }

/-- Hard per-simulation trial ceiling of the Monte Carlo simulator,
src/main.py line 501. -/
def MAX_KILLS_PER_SIM : ℕ := 1000000

/-- The `while not got and kills < MAX_KILLS_PER_SIM` loop of
drop_simulate (src/main.py lines 504-509), with the random draws given
as a stream: fuel counts the remaining allowed trials, kills the trials
performed so far; each iteration performs one more trial and stops on
the first draw below p. -/
def sim_loop (p : ℚ) (rng : ℕ → ℚ) : ℕ → ℕ → ℕ
  | 0, kills => kills
  | fuel + 1, kills =>
    if rng kills < p then kills + 1 else sim_loop p rng fuel (kills + 1)

/-- Number of kills recorded by one simulation of drop_simulate for
final probability fraction p and draw stream rng. -/
def sim_kills (p : ℚ) (rng : ℕ → ℚ) : ℕ :=
  sim_loop p rng MAX_KILLS_PER_SIM 0

/- Basic lemmas about the dict model. -/

theorem getKey_nil (k : String) : getKey [] k = none := rfl

theorem getKey_eq_none_iff (m : PMap) (k : String) :
    getKey m k = none ↔ ∀ kv ∈ m, kv.1 ≠ k := by
  simp [getKey, List.find?_eq_none]

theorem any_eq_false_of_getKey_none {m : PMap} {k : String}
    (h : getKey m k = none) :
    m.any (fun kv => decide (kv.1 = k)) = false := by
  rw [getKey_eq_none_iff] at h
  simp only [List.any_eq_false, decide_eq_true_eq]
  exact h

theorem setKey_of_getKey_none {m : PMap} {k : String} (v : ℚ)
    (h : getKey m k = none) : setKey m k v = m ++ [(k, v)] := by
  rw [setKey, if_neg]
  simp [any_eq_false_of_getKey_none h]

theorem sumVals_append (m₁ m₂ : PMap) :
    sumVals (m₁ ++ m₂) = sumVals m₁ + sumVals m₂ := by
  simp [sumVals]

theorem sumVals_setKey_fresh {m : PMap} {k : String} (v : ℚ)
    (h : getKey m k = none) :
    sumVals (setKey m k v) = sumVals m + v := by
  rw [setKey_of_getKey_none v h, sumVals_append]
  simp [sumVals]

theorem getKey_cons (kv : String × ℚ) (t : PMap) (k : String) :
    getKey (kv :: t) k = if kv.1 = k then some kv.2 else getKey t k := by
  by_cases h : kv.1 = k
  · simp [getKey, List.find?, h]
  · simp [getKey, List.find?, h]

theorem sumVals_cons (kv : String × ℚ) (t : PMap) :
    sumVals (kv :: t) = kv.2 + sumVals t := by
  simp [sumVals]

theorem getKey_map_update (m : PMap) (k : String) (v : ℚ) :
    getKey (m.map (fun kv => if kv.1 = k then (k, v) else kv)) k =
      (getKey m k).map (fun _ => v) := by
  induction m with
  | nil => rfl
  | cons kv t ih =>
    by_cases hk : kv.1 = k
    · simp [getKey_cons, hk]
    · simp [getKey_cons, hk, ih]

theorem getKey_map_update_ne (m : PMap) {k k' : String} (v : ℚ)
    (hne : k' ≠ k) :
    getKey (m.map (fun kv => if kv.1 = k then (k, v) else kv)) k' =
      getKey m k' := by
  induction m with
  | nil => rfl
  | cons kv t ih =>
    by_cases hk : kv.1 = k
    · simp [getKey_cons, hk, Ne.symm hne, ih]
    · by_cases hk' : kv.1 = k'
      · simp [getKey_cons, hk, hk', hne]
      · simp [getKey_cons, hk, hk', ih]

theorem getKey_append_single (m : PMap) (k : String) (v : ℚ)
    (h : getKey m k = none) : getKey (m ++ [(k, v)]) k = some v := by
  induction m with
  | nil => simp [getKey_cons]
  | cons kv t ih =>
    by_cases hk : kv.1 = k
    · rw [getKey_cons, if_pos hk] at h
      exact absurd h (by simp)
    · rw [getKey_cons, if_neg hk] at h
      simp only [List.cons_append, getKey_cons, if_neg hk]
      exact ih h

theorem getKey_append_single_ne (m : PMap) {k k' : String} (v : ℚ)
    (hne : k' ≠ k) : getKey (m ++ [(k, v)]) k' = getKey m k' := by
  induction m with
  | nil => simp [getKey_cons, Ne.symm hne, getKey_nil]
  | cons kv t ih =>
    by_cases hk : kv.1 = k'
    · simp [getKey_cons, hk]
    · simp [getKey_cons, hk, ih]

theorem getKey_setKey_self (m : PMap) (k : String) (v : ℚ) :
    getKey (setKey m k v) k = some v := by
  rw [setKey]
  by_cases h : m.any (fun kv => decide (kv.1 = k)) = true
  · rw [if_pos h]
    rw [getKey_map_update]
    rcases ho : getKey m k with _ | w
    · exfalso
      rw [getKey_eq_none_iff] at ho
      simp only [List.any_eq_true, decide_eq_true_eq] at h
      obtain ⟨kv, hkv, hk⟩ := h
      exact ho kv hkv hk
    · rfl
  · rw [if_neg h]
    apply getKey_append_single
    rw [getKey_eq_none_iff]
    simp only [List.any_eq_true, decide_eq_true_eq] at h
    push_neg at h
    exact h

theorem getKey_setKey_ne (m : PMap) {k k' : String} (v : ℚ)
    (hne : k' ≠ k) : getKey (setKey m k v) k' = getKey m k' := by
  rw [setKey]
  by_cases h : m.any (fun kv => decide (kv.1 = k)) = true
  · rw [if_pos h, getKey_map_update_ne m v hne]
  · rw [if_neg h, getKey_append_single_ne m v hne]

theorem delKey_cons (kv : String × ℚ) (t : PMap) (k : String) :
    delKey (kv :: t) k = if kv.1 = k then delKey t k else kv :: delKey t k := by
  by_cases h : kv.1 = k
  · simp [delKey, List.filter, h]
  · simp [delKey, List.filter, h]

theorem getKey_delKey_ne (m : PMap) {k k' : String} (hne : k' ≠ k) :
    getKey (delKey m k) k' = getKey m k' := by
  induction m with
  | nil => rfl
  | cons kv t ih =>
    by_cases hk : kv.1 = k
    · have hk' : kv.1 ≠ k' := by rw [hk]; exact Ne.symm hne
      rw [delKey_cons, if_pos hk, ih, getKey_cons, if_neg hk']
    · rw [delKey_cons, if_neg hk, getKey_cons, getKey_cons, ih]

theorem delKey_of_getKey_none {m : PMap} {k : String}
    (h : getKey m k = none) : delKey m k = m := by
  induction m with
  | nil => rfl
  | cons kv t ih =>
    by_cases hk : kv.1 = k
    · rw [getKey_cons, if_pos hk] at h
      exact absurd h (by simp)
    · rw [getKey_cons, if_neg hk] at h
      rw [delKey_cons, if_neg hk, ih h]

theorem delKey_delKey (m : PMap) (k : String) :
    delKey (delKey m k) k = delKey m k := by
  induction m with
  | nil => rfl
  | cons kv t ih =>
    by_cases hk : kv.1 = k
    · simp [delKey_cons, hk, ih]
    · simp [delKey_cons, hk, ih]

theorem delKey_append (m₁ m₂ : PMap) (k : String) :
    delKey (m₁ ++ m₂) k = delKey m₁ k ++ delKey m₂ k := by
  simp [delKey, List.filter_append]

theorem delKey_map_update (m : PMap) (k k' : String) (v : ℚ) :
    delKey (m.map (fun kv => if kv.1 = k' then (k', v) else kv)) k =
      (delKey m k).map (fun kv => if kv.1 = k' then (k', v) else kv) := by
  induction m with
  | nil => rfl
  | cons kv t ih =>
    by_cases h' : kv.1 = k' <;> by_cases h : kv.1 = k
    · have hkk : k' = k := (h'.symm.trans h)
      rw [List.map_cons, if_pos h', delKey_cons, if_pos hkk, ih,
        delKey_cons, if_pos h]
    · have hkk : ¬ (k' = k) := fun e => h (h'.trans e)
      rw [List.map_cons, if_pos h', delKey_cons, if_neg hkk, ih,
        delKey_cons, if_neg h, List.map_cons, if_pos h']
    · rw [List.map_cons, if_neg h', delKey_cons, if_pos h, ih,
        delKey_cons, if_pos h]
    · rw [List.map_cons, if_neg h', delKey_cons, if_neg h, ih,
        delKey_cons, if_neg h, List.map_cons, if_neg h']

theorem delKey_setKey_comm (m : PMap) {k k' : String} (v : ℚ)
    (hne : k' ≠ k) :
    delKey (setKey m k' v) k = setKey (delKey m k) k' v := by
  have hany : (delKey m k).any (fun kv => decide (kv.1 = k')) =
      m.any (fun kv => decide (kv.1 = k')) := by
    induction m with
    | nil => rfl
    | cons kv t ih =>
      by_cases hk : kv.1 = k
      · have h2 : kv.1 ≠ k' := by rw [hk]; exact Ne.symm hne
        rw [delKey_cons, if_pos hk, ih, List.any_cons]
        simp [h2]
      · rw [delKey_cons, if_neg hk, List.any_cons, List.any_cons, ih]
  rw [setKey, setKey, hany]
  by_cases h : m.any (fun kv => decide (kv.1 = k')) = true
  · rw [if_pos h, if_pos h]
    exact delKey_map_update m k k' v
  · rw [if_neg h, if_neg h, delKey_append]
    have : delKey [(k', v)] k = [(k', v)] := by
      simp [delKey_cons, hne]
      rfl
    rw [this]

theorem getKey_none_of_not_mem_keys {m : PMap} {k : String}
    (h : k ∉ m.map Prod.fst) : getKey m k = none := by
  rw [getKey_eq_none_iff]
  intro kv hkv hk
  exact h (by simp only [List.mem_map]; exact ⟨kv, hkv, hk⟩)

theorem sumVals_of_getKey_some {m : PMap} {k : String} {v : ℚ}
    (hnd : (m.map Prod.fst).Nodup) (h : getKey m k = some v) :
    sumVals m = v + sumVals (delKey m k) := by
  induction m with
  | nil => simp [getKey_nil] at h
  | cons kv t ih =>
    simp only [List.map_cons, List.nodup_cons] at hnd
    by_cases hk : kv.1 = k
    · rw [getKey_cons, if_pos hk] at h
      have hv : v = kv.2 := by injection h with h'; exact h'.symm
      have hnone : getKey t k = none := by
        apply getKey_none_of_not_mem_keys
        rw [← hk]
        exact hnd.1
      rw [delKey_cons, if_pos hk, delKey_of_getKey_none hnone,
        sumVals_cons, hv]
    · rw [getKey_cons, if_neg hk] at h
      rw [delKey_cons, if_neg hk, sumVals_cons, sumVals_cons,
        ih hnd.2 h]
      ring

theorem keys_map_update (m : PMap) (k : String) (v : ℚ) :
    (m.map (fun kv => if kv.1 = k then (k, v) else kv)).map Prod.fst =
      m.map Prod.fst := by
  induction m with
  | nil => rfl
  | cons kv t ih =>
    by_cases h : kv.1 = k
    · simp [h, ih]
    · simp [h, ih]

theorem nodup_keys_setKey {m : PMap} (k : String) (v : ℚ)
    (hnd : (m.map Prod.fst).Nodup) :
    ((setKey m k v).map Prod.fst).Nodup := by
  rw [setKey]
  by_cases h : m.any (fun kv => decide (kv.1 = k)) = true
  · rw [if_pos h, keys_map_update]
    exact hnd
  · rw [if_neg h]
    have hkm : k ∉ m.map Prod.fst := by
      intro hmem
      apply h
      simp only [List.mem_map] at hmem
      obtain ⟨kv, hkv, hk⟩ := hmem
      simp only [List.any_eq_true, decide_eq_true_eq]
      exact ⟨kv, hkv, hk⟩
    simp only [List.map_append, List.map_cons, List.map_nil]
    rw [List.nodup_append]
    refine ⟨hnd, List.nodup_singleton k, ?_⟩
    intro x hx hx'
    simp only [List.mem_singleton] at hx'
    exact hkm (hx' ▸ hx)

/- Lemmas about one step of the GENERAL_CONS loop. -/

theorem getKey_gen_step_ne (sel : List String) (uc ub : Bool) (m : PMap)
    (kv : String × ℚ) {k : String} (hk : k ≠ kv.1) :
    getKey (gen_step sel uc ub m kv) k = getKey m k := by
  rw [gen_step]
  split
  · split
    · split
      · rfl
      · exact getKey_setKey_ne m kv.2 hk
    · split
      · split
        · rfl
        · exact getKey_setKey_ne m kv.2 hk
      · exact getKey_setKey_ne m kv.2 hk
  · rfl

theorem delKey_gen_step_comm (sel : List String) (uc ub : Bool) (m : PMap)
    (kv : String × ℚ) {k : String} (hk : k ≠ kv.1) :
    delKey (gen_step sel uc ub m kv) k = gen_step sel uc ub (delKey m k) kv := by
  rw [gen_step, gen_step]
  have hc := @delKey_setKey_comm m k kv.1 kv.2 (Ne.symm hk)
  split
  · split
    · split
      · rfl
      · exact hc
    · split
      · split
        · rfl
        · exact hc
      · exact hc
  · rfl

theorem sumVals_gen_step_always (sel : List String) (uc ub : Bool)
    (m : PMap) (k : String) (v : ℚ) (hf : getKey m k = none)
    (hk1 : ¬(k = "lata" ∨ k = "revitalizadora")) (hk2 : ¬ k = "drop_pot") :
    sumVals (gen_step sel uc ub m (k, v)) =
      sumVals m + (if k ∈ sel then v else 0) := by
  by_cases hA : k ∈ sel <;>
    simp [gen_step, hA, hk1, hk2, sumVals_setKey_fresh v hf]

theorem sumVals_gen_step_lata (sel : List String) (uc ub : Bool)
    (m : PMap) (k : String) (v : ℚ) (hf : getKey m k = none)
    (hk1 : k = "lata" ∨ k = "revitalizadora") :
    sumVals (gen_step sel uc ub m (k, v)) =
      sumVals m + (if k ∈ sel ∧ ub = false then v else 0) := by
  rcases hk1 with h | h
  · subst h
    cases ub <;> by_cases hA : "lata" ∈ sel <;>
      simp [gen_step, hA, sumVals_setKey_fresh v hf]
  · subst h
    cases ub <;> by_cases hA : "revitalizadora" ∈ sel <;>
      simp [gen_step, hA, sumVals_setKey_fresh v hf]

theorem sumVals_gen_step_drop_pot (sel : List String) (uc ub : Bool)
    (m : PMap) (v : ℚ) (hf : getKey m "drop_pot" = none) :
    sumVals (gen_step sel uc ub m ("drop_pot", v)) =
      sumVals m + (if "drop_pot" ∈ sel ∧ uc = false then v else 0) := by
  cases uc <;> by_cases hA : "drop_pot" ∈ sel <;>
    simp [gen_step, hA, sumVals_setKey_fresh v hf]

/-- Complete characterisation of the general aggregate produced by the
consumable-processing block, for a caller map that does not already use
any of the keys the block writes. -/
theorem sumVals_resolve_general (gm : PMap) (sel : List String)
    (h0 : getKey gm "consumable_big" = none)
    (h1 : getKey gm "lata" = none)
    (h2 : getKey gm "revitalizadora" = none)
    (h3 : getKey gm "drop_pot" = none)
    (h4 : getKey gm "fusion" = none)
    (h5 : getKey gm "doador" = none)
    (h6 : getKey gm "doador_rmt" = none) :
    sumVals (resolve_general gm sel) =
      sumVals gm
      + (if 0 < best_big sel then best_big sel else 0)
      + (if "lata" ∈ sel ∧ ¬("calice" ∈ sel ∨ "calice2" ∈ sel) then 20 else 0)
      + (if "revitalizadora" ∈ sel ∧ ¬("calice" ∈ sel ∨ "calice2" ∈ sel) then 20 else 0)
      + (if "drop_pot" ∈ sel ∧ ¬("calice" ∈ sel) then 25 else 0)
      + (if "fusion" ∈ sel then 25 else 0)
      + (if "doador" ∈ sel then 35 else 0)
      + (if "doador_rmt" ∈ sel then 35 else 0) := by
  simp only [resolve_general, GENERAL_CONS, List.foldl_cons, List.foldl_nil]
  generalize hub : decide ("calice" ∈ sel ∨ "calice2" ∈ sel) = ub
  generalize huc : decide ("calice" ∈ sel) = uc
  set m0 := if 0 < best_big sel then setKey gm "consumable_big" (best_big sel)
    else gm with hm0
  have hg0 : ∀ k, k ≠ "consumable_big" → getKey m0 k = getKey gm k := by
    intro k hk
    rw [hm0]
    by_cases hb : 0 < best_big sel
    · rw [if_pos hb, getKey_setKey_ne gm _ hk]
    · rw [if_neg hb]
  have hs0 : sumVals m0 = sumVals gm
      + (if 0 < best_big sel then best_big sel else 0) := by
    rw [hm0]
    by_cases hb : 0 < best_big sel
    · rw [if_pos hb, if_pos hb, sumVals_setKey_fresh _ h0]
    · rw [if_neg hb, if_neg hb, add_zero]
  set A1 := gen_step sel uc ub m0 ("lata", 20) with hA1
  set A2 := gen_step sel uc ub A1 ("revitalizadora", 20) with hA2
  set A3 := gen_step sel uc ub A2 ("drop_pot", 25) with hA3
  set A4 := gen_step sel uc ub A3 ("fusion", 25) with hA4
  set A5 := gen_step sel uc ub A4 ("doador", 35) with hA5
  have f1 : getKey m0 "lata" = none := (hg0 _ (by decide)).trans h1
  have f2 : getKey A1 "revitalizadora" = none := by
    rw [hA1, getKey_gen_step_ne sel uc ub m0 _ (by decide)]
    exact (hg0 _ (by decide)).trans h2
  have f3 : getKey A2 "drop_pot" = none := by
    rw [hA2, getKey_gen_step_ne sel uc ub A1 _ (by decide), hA1,
      getKey_gen_step_ne sel uc ub m0 _ (by decide)]
    exact (hg0 _ (by decide)).trans h3
  have f4 : getKey A3 "fusion" = none := by
    rw [hA3, getKey_gen_step_ne sel uc ub A2 _ (by decide), hA2,
      getKey_gen_step_ne sel uc ub A1 _ (by decide), hA1,
      getKey_gen_step_ne sel uc ub m0 _ (by decide)]
    exact (hg0 _ (by decide)).trans h4
  have f5 : getKey A4 "doador" = none := by
    rw [hA4, getKey_gen_step_ne sel uc ub A3 _ (by decide), hA3,
      getKey_gen_step_ne sel uc ub A2 _ (by decide), hA2,
      getKey_gen_step_ne sel uc ub A1 _ (by decide), hA1,
      getKey_gen_step_ne sel uc ub m0 _ (by decide)]
    exact (hg0 _ (by decide)).trans h5
  have f6 : getKey A5 "doador_rmt" = none := by
    rw [hA5, getKey_gen_step_ne sel uc ub A4 _ (by decide), hA4,
      getKey_gen_step_ne sel uc ub A3 _ (by decide), hA3,
      getKey_gen_step_ne sel uc ub A2 _ (by decide), hA2,
      getKey_gen_step_ne sel uc ub A1 _ (by decide), hA1,
      getKey_gen_step_ne sel uc ub m0 _ (by decide)]
    exact (hg0 _ (by decide)).trans h6
  rw [sumVals_gen_step_always sel uc ub A5 "doador_rmt" 35 f6 (by decide)
      (by decide),
    hA5, sumVals_gen_step_always sel uc ub A4 "doador" 35 f5 (by decide)
      (by decide),
    hA4, sumVals_gen_step_always sel uc ub A3 "fusion" 25 f4 (by decide)
      (by decide),
    hA3, sumVals_gen_step_drop_pot sel uc ub A2 25 f3,
    hA2, sumVals_gen_step_lata sel uc ub A1 "revitalizadora" 20 f2
      (Or.inr rfl),
    hA1, sumVals_gen_step_lata sel uc ub m0 "lata" 20 f1 (Or.inl rfl),
    hs0, ← hub, ← huc]
  simp only [decide_eq_false_iff_not]

theorem gen_step_congr (sel sel' : List String) (uc ub : Bool) (m : PMap)
    (kv : String × ℚ) (hmem : (kv.1 ∈ sel) ↔ (kv.1 ∈ sel')) :
    gen_step sel uc ub m kv = gen_step sel' uc ub m kv := by
  rw [gen_step, gen_step]
  exact if_congr hmem rfl rfl

theorem foldl_gen_step_congr (l : PMap) (sel sel' : List String)
    (uc ub : Bool) (hmem : ∀ kv ∈ l, (kv.1 ∈ sel) ↔ (kv.1 ∈ sel')) :
    ∀ m : PMap, l.foldl (gen_step sel uc ub) m = l.foldl (gen_step sel' uc ub) m := by
  induction l with
  | nil => intro m; rfl
  | cons kv t ih =>
    intro m
    rw [List.foldl_cons, List.foldl_cons,
      gen_step_congr sel sel' uc ub m kv (hmem kv (by simp))]
    exact ih (fun kv' h => hmem kv' (by simp [h])) _

theorem resolve_general_congr (gm : PMap) (sel sel' : List String)
    (hbig : best_big sel = best_big sel')
    (hc : ("calice" ∈ sel) ↔ ("calice" ∈ sel'))
    (hcb : ("calice" ∈ sel ∨ "calice2" ∈ sel) ↔
      ("calice" ∈ sel' ∨ "calice2" ∈ sel'))
    (hmem : ∀ kv ∈ GENERAL_CONS, (kv.1 ∈ sel) ↔ (kv.1 ∈ sel')) :
    resolve_general gm sel = resolve_general gm sel' := by
  simp only [resolve_general]
  rw [hbig, decide_eq_decide.mpr hc, decide_eq_decide.mpr hcb]
  exact foldl_gen_step_congr GENERAL_CONS sel sel' _ _ hmem _

theorem mem_filter_ne_iff (sel : List String) {k b : String} (hk : k ≠ b) :
    k ∈ sel.filter (fun x => decide (¬ x = b)) ↔ k ∈ sel := by
  simp [List.mem_filter, hk]

theorem getKey_BIG_CONS_cases {k : String} {v : ℚ}
    (h : getKey BIG_CONS k = some v) :
    (k = "calice" ∧ v = 265) ∨ (k = "calice2" ∧ v = 240) ∨
    (k = "chicle" ∧ v = 200) ∨ (k = "chiclete" ∧ v = 100) := by
  rw [BIG_CONS, getKey_cons, getKey_cons, getKey_cons, getKey_cons,
    getKey_nil] at h
  split_ifs at h with e1 e2 e3 e4
  · exact Or.inl ⟨e1.symm, by injection h with e; exact e.symm⟩
  · exact Or.inr (Or.inl ⟨e2.symm, by injection h with e; exact e.symm⟩)
  · exact Or.inr (Or.inr (Or.inl ⟨e3.symm, by injection h with e; exact e.symm⟩))
  · exact Or.inr (Or.inr (Or.inr ⟨e4.symm, by injection h with e; exact e.symm⟩))

/- Preservation lemmas along the GENERAL_CONS fold, used for the
reputation-gating and batch-result claims. -/

theorem getKey_foldl_gen_step_ne (l : PMap) (sel : List String)
    (uc ub : Bool) {k : String} (hk : ∀ kv ∈ l, k ≠ kv.1) :
    ∀ m : PMap, getKey (l.foldl (gen_step sel uc ub) m) k = getKey m k := by
  induction l with
  | nil => intro m; rfl
  | cons kv t ih =>
    intro m
    rw [List.foldl_cons, ih (fun kv' h => hk kv' (by simp [h])),
      getKey_gen_step_ne sel uc ub m kv (hk kv (by simp))]

theorem delKey_foldl_gen_step_comm (l : PMap) (sel : List String)
    (uc ub : Bool) {k : String} (hk : ∀ kv ∈ l, k ≠ kv.1) :
    ∀ m : PMap, delKey (l.foldl (gen_step sel uc ub) m) k =
      l.foldl (gen_step sel uc ub) (delKey m k) := by
  induction l with
  | nil => intro m; rfl
  | cons kv t ih =>
    intro m
    rw [List.foldl_cons, List.foldl_cons,
      ih (fun kv' h => hk kv' (by simp [h])),
      delKey_gen_step_comm sel uc ub m kv (hk kv (by simp))]

theorem nodup_keys_gen_step (sel : List String) (uc ub : Bool) (m : PMap)
    (kv : String × ℚ) (hnd : (m.map Prod.fst).Nodup) :
    ((gen_step sel uc ub m kv).map Prod.fst).Nodup := by
  rw [gen_step]
  split
  · split
    · split
      · exact hnd
      · exact nodup_keys_setKey kv.1 kv.2 hnd
    · split
      · split
        · exact hnd
        · exact nodup_keys_setKey kv.1 kv.2 hnd
      · exact nodup_keys_setKey kv.1 kv.2 hnd
  · exact hnd

theorem nodup_keys_foldl_gen_step (l : PMap) (sel : List String)
    (uc ub : Bool) :
    ∀ m : PMap, (m.map Prod.fst).Nodup →
      ((l.foldl (gen_step sel uc ub) m).map Prod.fst).Nodup := by
  induction l with
  | nil => intro m h; exact h
  | cons kv t ih =>
    intro m h
    rw [List.foldl_cons]
    exact ih _ (nodup_keys_gen_step sel uc ub m kv h)

theorem getKey_resolve_general_outside (gm : PMap) (sel : List String)
    {k : String} (h1 : k ≠ "consumable_big")
    (h2 : ∀ kv ∈ GENERAL_CONS, k ≠ kv.1) :
    getKey (resolve_general gm sel) k = getKey gm k := by
  simp only [resolve_general]
  rw [getKey_foldl_gen_step_ne GENERAL_CONS sel _ _ h2]
  by_cases hb : 0 < best_big sel
  · rw [if_pos hb, getKey_setKey_ne gm _ h1]
  · rw [if_neg hb]

theorem delKey_resolve_general_comm (gm : PMap) (sel : List String)
    {k : String} (h1 : k ≠ "consumable_big")
    (h2 : ∀ kv ∈ GENERAL_CONS, k ≠ kv.1) :
    delKey (resolve_general gm sel) k = resolve_general (delKey gm k) sel := by
  simp only [resolve_general]
  rw [delKey_foldl_gen_step_comm GENERAL_CONS sel _ _ h2]
  congr 1
  by_cases hb : 0 < best_big sel
  · rw [if_pos hb, if_pos hb, delKey_setKey_comm gm _ (Ne.symm h1)]
  · rw [if_neg hb, if_neg hb]

theorem nodup_keys_resolve_general (gm : PMap) (sel : List String)
    (hnd : (gm.map Prod.fst).Nodup) :
    ((resolve_general gm sel).map Prod.fst).Nodup := by
  simp only [resolve_general]
  apply nodup_keys_foldl_gen_step
  by_cases hb : 0 < best_big sel
  · rw [if_pos hb]
    exact nodup_keys_setKey _ _ hnd
  · rw [if_neg hb]
    exact hnd

/- Lemmas about the mastery-tier resolution of drop_calculate. -/

theorem getKey_set_mastery_ne (m : PMap) (key : String) (fam : PMap)
    (sel : List String) {k : String} (hk : k ≠ key) :
    getKey (set_mastery m key fam sel) k = getKey m k := by
  rw [set_mastery]
  cases h : first_tier fam sel with
  | none => rfl
  | some v => exact getKey_setKey_ne m v hk

theorem getKey_set_mastery_hit (m : PMap) (key : String) (fam : PMap)
    (sel : List String) {v : ℚ} (h : first_tier fam sel = some v) :
    getKey (set_mastery m key fam sel) key = some v := by
  rw [set_mastery, h]
  exact getKey_setKey_self m key v

theorem first_tier_first_match (sel : List String) (pre : PMap)
    (kv : String × ℚ) (post : PMap) (hsel : kv.1 ∈ sel)
    (hpre : ∀ kv' ∈ pre, kv'.1 ∉ sel) :
    first_tier (pre ++ kv :: post) sel = some kv.2 := by
  induction pre with
  | nil =>
    simp only [List.nil_append, first_tier, List.find?]
    rw [decide_eq_true hsel]
    rfl
  | cons kv' t ih =>
    simp only [List.cons_append, first_tier, List.find?]
    rw [decide_eq_false (hpre kv' (by simp))]
    exact ih (fun x hx => hpre x (by simp [hx]))

/- Bounds for the capping pipeline. -/

theorem pipeline_final_le_90 (p_base Bg Bf : ℚ) (h : p_base ≤ 90) :
    pipeline_final p_base Bg Bf ≤ 90 := by
  simp only [pipeline_final, apply_caps, if_pos h]
  exact min_le_right _ _

theorem pipeline_final_nonneg (p_base Bg Bf : ℚ) (h : p_base ≤ 90)
    (h0 : 0 ≤ p_base) (hg : -100 ≤ Bg) (hf : -100 ≤ Bf) :
    0 ≤ pipeline_final p_base Bg Bf := by
  simp only [pipeline_final, apply_caps, if_pos h]
  apply le_min
  · have e1 : (0:ℚ) ≤ 1 + Bg / 100 := by
      have : 1 + Bg / 100 = (100 + Bg) / 100 := by ring
      rw [this]
      exact div_nonneg (by linarith) (by norm_num)
    have e2 : (0:ℚ) ≤ 1 + Bf / 100 := by
      have : 1 + Bf / 100 = (100 + Bf) / 100 := by ring
      rw [this]
      exact div_nonneg (by linarith) (by norm_num)
    exact mul_nonneg (mul_nonneg h0 e1) e2
  · norm_num

theorem pipeline_final_at_100 (Bg Bf : ℚ) :
    pipeline_final 100 Bg Bf = 100 := by
  simp only [pipeline_final, apply_caps]
  norm_num

/- Lemmas about the Monte Carlo trial loop. -/

theorem sim_loop_le (p : ℚ) (rng : ℕ → ℚ) :
    ∀ fuel kills, sim_loop p rng fuel kills ≤ kills + fuel := by
  intro fuel
  induction fuel with
  | zero => intro kills; simp [sim_loop]
  | succ n ih =>
    intro kills
    rw [sim_loop]
    split
    · omega
    · have := ih (kills + 1)
      omega

theorem sim_loop_ge (p : ℚ) (rng : ℕ → ℚ) :
    ∀ fuel kills, kills ≤ sim_loop p rng fuel kills := by
  intro fuel
  induction fuel with
  | zero => intro kills; simp [sim_loop]
  | succ n ih =>
    intro kills
    rw [sim_loop]
    split
    · omega
    · have := ih (kills + 1)
      omega

theorem sim_loop_pos (p : ℚ) (rng : ℕ → ℚ) (fuel kills : ℕ)
    (hf : 0 < fuel) : kills + 1 ≤ sim_loop p rng fuel kills := by
  cases fuel with
  | zero => omega
  | succ n =>
    rw [sim_loop]
    split
    · omega
    · have := sim_loop_ge p rng n (kills + 1)
      omega

theorem sim_loop_never (p : ℚ) (rng : ℕ → ℚ)
    (hr : ∀ i, ¬ (rng i < p)) :
    ∀ fuel kills, sim_loop p rng fuel kills = kills + fuel := by
  intro fuel
  induction fuel with
  | zero => intro kills; simp [sim_loop]
  | succ n ih =>
    intro kills
    rw [sim_loop, if_neg (hr kills), ih (kills + 1)]
    omega

theorem sim_loop_first_success (p : ℚ) (rng : ℕ → ℚ) :
    ∀ fuel kills i, kills ≤ i → i < kills + fuel → rng i < p →
      (∀ j, kills ≤ j → j < i → ¬ (rng j < p)) →
      sim_loop p rng fuel kills = i + 1 := by
  intro fuel
  induction fuel with
  | zero => intro kills i h1 h2 _ _; omega
  | succ n ih =>
    intro kills i h1 h2 h3 h4
    rw [sim_loop]
    by_cases hc : rng kills < p
    · rw [if_pos hc]
      have : i = kills := by
        by_contra hne
        exact h4 kills le_rfl (by omega) hc
      omega
    · rw [if_neg hc]
      have hki : kills ≠ i := fun e => hc (e ▸ h3)
      exact ih (kills + 1) i (by omega) (by omega) h3
        (fun j hj1 hj2 => h4 j (by omega) hj2)

/-- C1: the single-item calculation cannot succeed on any well-formed
request: drop_calculate reads the attributes item_id and num_kills (and
drop_simulate reads mc_simulations) from the request object, but the
request model declares only general_mods, final_mods and consumables, so
every request raises AttributeError instead of returning a breakdown. -/
theorem scenario_model_missing_fields :
    "item_id" ∈ drop_calculate_reads ∧ "item_id" ∉ scenario_fields ∧
    "num_kills" ∈ drop_calculate_reads ∧ "num_kills" ∉ scenario_fields ∧
    "mc_simulations" ∈ drop_simulate_reads ∧
    "mc_simulations" ∉ scenario_fields := by decide

/-- C2 counterexample: at p_base = 10, B_general = -200, B_final = 0 the
capped final percentage is -10, outside the claimed interval [0, 90]. -/
theorem caps_interval_counterexample :
    pipeline_final 10 (-200) 0 = -10 ∧
    ¬ (0 ≤ pipeline_final 10 (-200) 0 ∧ pipeline_final 10 (-200) 0 ≤ 90) := by
  have h : pipeline_final 10 (-200) 0 = -10 := by
    simp only [pipeline_final, apply_caps]
    norm_num [min_def]
  refine ⟨h, ?_⟩
  rw [h]
  norm_num

/-- C2 (amended): for every p_base ≤ 90 and all signed aggregates the
capped final percentage is at most 90; the lower bound 0 additionally
holds whenever p_base ≥ 0 and both aggregates are ≥ -100. -/
theorem caps_interval_amended (p_base Bg Bf : ℚ) (h : p_base ≤ 90) :
    pipeline_final p_base Bg Bf ≤ 90 ∧
    (0 ≤ p_base → -100 ≤ Bg → -100 ≤ Bf →
      0 ≤ pipeline_final p_base Bg Bf) :=
  ⟨pipeline_final_le_90 p_base Bg Bf h,
   fun h0 hg hf => pipeline_final_nonneg p_base Bg Bf h h0 hg hf⟩

theorem caps_interval_amended_witness :
    pipeline_final 10 50 0 ≤ 90 ∧
    (0 ≤ (10:ℚ) → -100 ≤ (50:ℚ) → -100 ≤ (0:ℚ) →
      0 ≤ pipeline_final 10 50 0) :=
  caps_interval_amended 10 50 0 (by norm_num)

/-- C5 counterexample: a batch item with base 95 and B_general = 10
yields final percentage 104.5 > 100 (the 90 < base < 100 branch is
uncapped), and a base-20 item with B_general = -300 yields -40 < 0. -/
theorem final_interval_counterexample :
    (calc_item 10 0 "gema" ⟨"Gema", 95, false⟩).p_final_percent = 209 / 2 ∧
    ¬ (calc_item 10 0 "gema" ⟨"Gema", 95, false⟩).p_final_percent ≤ 100 ∧
    (calc_item (-300) 0 "runa" ⟨"Runa", 20, false⟩).p_final_percent = -40 ∧
    ¬ 0 ≤ (calc_item (-300) 0 "runa" ⟨"Runa", 20, false⟩).p_final_percent := by
  have h1 : (calc_item 10 0 "gema" ⟨"Gema", 95, false⟩).p_final_percent
      = 209 / 2 := by
    simp only [calc_item, apply_caps]
    norm_num [min_def]
  have h2 : (calc_item (-300) 0 "runa" ⟨"Runa", 20, false⟩).p_final_percent
      = -40 := by
    simp only [calc_item, apply_caps]
    norm_num [min_def]
  refine ⟨h1, by rw [h1]; norm_num, h2, by rw [h2]; norm_num⟩

/-- C5 (amended): for p_base in [0,100] with both aggregates ≥ -100, the
capped final percentage lies in [0,100] whenever p_base ≤ 90 or
p_base = 100; a base strictly between 90 and 100 passes uncapped and can
exceed 100. -/
theorem final_interval_amended (p_base Bg Bf : ℚ) (h0 : 0 ≤ p_base)
    (hcase : p_base ≤ 90 ∨ p_base = 100)
    (hg : -100 ≤ Bg) (hf : -100 ≤ Bf) :
    0 ≤ pipeline_final p_base Bg Bf ∧ pipeline_final p_base Bg Bf ≤ 100 := by
  rcases hcase with h | h
  · exact ⟨pipeline_final_nonneg _ _ _ h h0 hg hf,
      le_trans (pipeline_final_le_90 _ _ _ h) (by norm_num)⟩
  · subst h
    rw [pipeline_final_at_100]
    norm_num

theorem final_interval_amended_witness :
    0 ≤ pipeline_final 100 500 0 ∧ pipeline_final 100 500 0 ≤ 100 :=
  final_interval_amended 100 500 0 (by norm_num) (Or.inr rfl)
    (by norm_num) (by norm_num)

/-- C6 counterexample: a flagged (is_florzinha) item with catalog base 10
is computed by the batch calculation from base 10, not from the fixed
florzinha base 2.0: with zero aggregates the final is 10, not 2. -/
theorem florzinha_fixed_base_counterexample :
    (calc_item 0 0 "flor" ⟨"Flor", 10, true⟩).p_final_percent = 10 ∧
    pipeline_final 2 0 0 = 2 ∧ (10 : ℚ) ≠ 2 := by
  refine ⟨?_, ?_, by norm_num⟩
  · simp only [calc_item, apply_caps]
    norm_num [min_def]
  · simp only [pipeline_final, apply_caps]
    norm_num [min_def]

/-- C6 (amended): the is_florzinha flag never changes the computation:
batch entries use the catalog base for flagged and unflagged items alike,
while the single-item calculation always reports, next to the
catalog-based final percentage, a separate florzinha percentage computed
from the fixed base 2.0 through the same B_general, B_final and capping
pipeline, regardless of any flag. -/
theorem florzinha_amended (Bg Bf p_base : ℚ) (iid nm : String) (fl : Bool)
    (gm fm : PMap) (sel : List String) (nk : ℤ) :
    (calc_item Bg Bf iid ⟨nm, p_base, fl⟩).p_final_percent =
      apply_caps p_base (p_base * (1 + Bg / 100) * (1 + Bf / 100)) ∧
    (drop_calculate_core p_base gm fm sel nk).drop_florzinha_percent =
      apply_caps 2 (2 *
        (1 + (drop_calculate_core p_base gm fm sel nk).B_general_percent / 100) *
        (1 + (drop_calculate_core p_base gm fm sel nk).B_final_percent / 100)) ∧
    (drop_calculate_core p_base gm fm sel nk).p_final_percent =
      apply_caps p_base (p_base *
        (1 + (drop_calculate_core p_base gm fm sel nk).B_general_percent / 100) *
        (1 + (drop_calculate_core p_base gm fm sel nk).B_final_percent / 100)) :=
  ⟨rfl, rfl, rfl⟩
/-- C3 counterexample: chicle is an exclusive-group token, yet selecting
chicle together with lata does not suppress lata: B_general is
220 (200 + 20), not the 200 the claim predicts. -/
theorem general_cons_suppression_counterexample :
    sumVals (resolve_general [] ["chicle", "lata"]) = 220 ∧
    sumVals (resolve_general [] ["chicle"]) = 200 ∧ (220 : ℚ) ≠ 200 := by
  have hb : best_big ["chicle", "lata"] = 200 := by decide
  have hb2 : best_big ["chicle"] = 200 := by decide
  refine ⟨?_, ?_, by norm_num⟩
  · rw [sumVals_resolve_general [] _ rfl rfl rfl rfl rfl rfl rfl, hb]
    norm_num +decide [sumVals]
  · rw [sumVals_resolve_general [] _ rfl rfl rfl rfl rfl rfl rfl, hb2]
    norm_num +decide [sumVals]

/-- C3 (amended): lata and revitalizadora are suppressed exactly when
calice or calice2 is selected (chicle and chiclete do not suppress
them); drop_pot is suppressed exactly when calice is selected; fusion,
doador and doador_rmt are added whenever selected — the closed form of
B_general for a caller map that does not use the consumable keys. -/
theorem general_cons_suppression (gm : PMap) (sel : List String)
    (h0 : getKey gm "consumable_big" = none)
    (h1 : getKey gm "lata" = none)
    (h2 : getKey gm "revitalizadora" = none)
    (h3 : getKey gm "drop_pot" = none)
    (h4 : getKey gm "fusion" = none)
    (h5 : getKey gm "doador" = none)
    (h6 : getKey gm "doador_rmt" = none) :
    sumVals (resolve_general gm sel) =
      sumVals gm
      + (if 0 < best_big sel then best_big sel else 0)
      + (if "lata" ∈ sel ∧ ¬("calice" ∈ sel ∨ "calice2" ∈ sel) then 20 else 0)
      + (if "revitalizadora" ∈ sel ∧ ¬("calice" ∈ sel ∨ "calice2" ∈ sel) then 20 else 0)
      + (if "drop_pot" ∈ sel ∧ ¬("calice" ∈ sel) then 25 else 0)
      + (if "fusion" ∈ sel then 25 else 0)
      + (if "doador" ∈ sel then 35 else 0)
      + (if "doador_rmt" ∈ sel then 35 else 0) :=
  sumVals_resolve_general gm sel h0 h1 h2 h3 h4 h5 h6

theorem general_cons_suppression_witness :
    sumVals (resolve_general [("dominio_reputation", 10)]
      ["calice", "lata", "drop_pot", "fusion"]) = 300 := by
  have hb : best_big ["calice", "lata", "drop_pot", "fusion"] = 265 := by
    decide
  have h := general_cons_suppression [("dominio_reputation", 10)]
    ["calice", "lata", "drop_pot", "fusion"] rfl rfl rfl rfl rfl rfl rfl
  rw [h, hb]
  norm_num +decide [sumVals]

/-- C4 counterexample: the final probability fraction 1 is attainable
(base 100 is forced to 100 by the caps), and at p = 1 the median formula
evaluates math.log(1 - 1) = math.log(0), which raises a math domain
error instead of returning a value. -/
theorem kill_stats_domain_error_counterexample :
    pipeline_final 100 0 0 / 100 = 1 ∧
    kill_stats (fun _ => 0) 1 1 = Except.error "math domain error" := by
  constructor
  · rw [pipeline_final_at_100]
    norm_num
  · norm_num [kill_stats, pylog]

/-- C4 (amended): with math.log modelled as an abstract real logarithm
(nonzero on positive arguments other than 1), the kill statistics raise
no exception for any 0 ≤ p < 1 — mean and median are None exactly at
p = 0 — but for every p ≥ 1 the median formula passes a nonpositive
argument to math.log and raises a math domain error. -/
theorem kill_stats_amended (lg : ℚ → ℚ)
    (hlg : ∀ x : ℚ, 0 < x → x ≠ 1 → lg x ≠ 0) (p : ℚ) (n : ℕ) :
    (0 ≤ p → p < 1 →
      kill_stats lg p n = Except.ok
        { prob_at_least_one_in_N := 1 - (1 - p) ^ n
          expected_drops_in_N := (n : ℚ) * p
          mean_kills_for_one := if 0 < p then some (1 / p) else none
          median_kills_for_50pct :=
            if 0 < p then some (lg (1 / 2) / lg (1 - p)) else none }) ∧
    (1 ≤ p → kill_stats lg p n = Except.error "math domain error") := by
  constructor
  · intro hge hlt
    by_cases hp : 0 < p
    · have hb : (0:ℚ) < 1 - p := by linarith
      have hbne : lg (1 - p) ≠ 0 := by
        apply hlg _ hb
        intro e
        have : p = 0 := by linarith [e]
        exact absurd this (ne_of_gt hp)
      norm_num [kill_stats, pylog, pydiv, hp, hb, hbne]
    · have hp0 : p = 0 := le_antisymm (not_lt.mp hp) hge
      subst hp0
      norm_num [kill_stats]
  · intro hge
    have hp : 0 < p := by linarith
    have hb : ¬ ((0:ℚ) < 1 - p) := by linarith
    norm_num [kill_stats, pylog, hp, hb]

theorem kill_stats_amended_witness :
    kill_stats (fun _ => -1) (1 / 2) 2 = Except.ok
      { prob_at_least_one_in_N := 3 / 4
        expected_drops_in_N := 1
        mean_kills_for_one := some 2
        median_kills_for_50pct := some 1 } := by
  have h := (kill_stats_amended (fun _ => -1)
    (fun x h1 h2 => by norm_num) (1 / 2) 2).1 (by norm_num) (by norm_num)
  rw [h]
  norm_num

/-- C7: when two distinct big-consumable tokens are both selected, the
general aggregate is unchanged by removing the lower-valued one: only
the single highest selected big value is added (at-most-one-wins). -/
theorem big_cons_at_most_one_wins (gm : PMap) (sel : List String)
    (a b : String) (va vb : ℚ)
    (ha : getKey BIG_CONS a = some va) (hb : getKey BIG_CONS b = some vb)
    (hab : a ≠ b) (hle : vb ≤ va) (hsa : a ∈ sel) (hsb : b ∈ sel) :
    sumVals (resolve_general gm sel) =
      sumVals (resolve_general gm (sel.filter (fun x => decide (¬ x = b)))) := by
  rcases getKey_BIG_CONS_cases ha with ⟨ea, eva⟩ | ⟨ea, eva⟩ | ⟨ea, eva⟩ | ⟨ea, eva⟩ <;>
    rcases getKey_BIG_CONS_cases hb with ⟨eb, evb⟩ | ⟨eb, evb⟩ | ⟨eb, evb⟩ | ⟨eb, evb⟩ <;>
    subst ea <;> subst eb <;> subst eva <;> subst evb
  all_goals try exact absurd rfl hab
  all_goals try norm_num at hle
  all_goals
    apply congrArg sumVals
    apply resolve_general_congr
    case hbig =>
      by_cases m1 : "calice" ∈ sel <;> by_cases m2 : "calice2" ∈ sel <;>
      by_cases m3 : "chicle" ∈ sel <;> by_cases m4 : "chiclete" ∈ sel <;>
        first
        | exact absurd hsa (by assumption)
        | exact absurd hsb (by assumption)
        | (simp [best_big, BIG_CONS, List.mem_filter, m1, m2, m3, m4] <;> decide)
    case hc => exact (mem_filter_ne_iff sel (by decide)).symm
    case hcb =>
      first
      | exact or_congr (mem_filter_ne_iff sel (by decide)).symm
          (mem_filter_ne_iff sel (by decide)).symm
      | exact iff_of_true (Or.inl hsa)
          (Or.inl ((mem_filter_ne_iff sel (by decide)).mpr hsa))
    case hmem =>
      intro kv hkv
      simp only [GENERAL_CONS, List.mem_cons, List.not_mem_nil, or_false] at hkv
      rcases hkv with rfl | rfl | rfl | rfl | rfl | rfl <;>
        exact (mem_filter_ne_iff sel (by decide)).symm

theorem big_cons_at_most_one_wins_witness :
    sumVals (resolve_general [] ["calice", "chicle"]) =
      sumVals (resolve_general []
        (["calice", "chicle"].filter (fun x => decide (¬ x = "chicle")))) :=
  big_cons_at_most_one_wins [] ["calice", "chicle"] "calice" "chicle"
    265 200 rfl rfl (by decide) (by norm_num) (by decide) (by decide)

/-- C9: the Monte Carlo per-simulation trial loop always terminates with
a recorded trial count in [1, 1000000]; with draws in [0,1) and p = 0 it
records exactly 1000000 trials, and it stops right at the first
successful trial otherwise. -/
theorem monte_carlo_termination (p : ℚ) (rng : ℕ → ℚ)
    (hr : ∀ i, 0 ≤ rng i) :
    (1 ≤ sim_kills p rng ∧ sim_kills p rng ≤ MAX_KILLS_PER_SIM) ∧
    (p = 0 → sim_kills p rng = MAX_KILLS_PER_SIM) ∧
    (∀ i, i < MAX_KILLS_PER_SIM → rng i < p →
      (∀ j, j < i → ¬ (rng j < p)) → sim_kills p rng = i + 1) := by
  refine ⟨⟨?_, ?_⟩, ?_, ?_⟩
  · have h := sim_loop_pos p rng MAX_KILLS_PER_SIM 0
      (by norm_num [MAX_KILLS_PER_SIM])
    simpa [sim_kills] using h
  · have h := sim_loop_le p rng MAX_KILLS_PER_SIM 0
    simpa [sim_kills] using h
  · intro hp
    subst hp
    simp only [sim_kills]
    rw [sim_loop_never 0 rng (fun i => not_lt.mpr (hr i))
      MAX_KILLS_PER_SIM 0]
    omega
  · intro i hi hsucc hbefore
    simp only [sim_kills]
    exact sim_loop_first_success p rng MAX_KILLS_PER_SIM 0 i
      (Nat.zero_le i) (by omega) hsucc (fun j _ hj => hbefore j hj)

theorem monte_carlo_termination_witness :
    sim_kills 1 (fun _ => 1 / 2) = 1 :=
  (monte_carlo_termination 1 (fun _ => (1:ℚ) / 2)
    (fun _ => by norm_num)).2.2 0 (by norm_num [MAX_KILLS_PER_SIM])
    (by norm_num) (fun j hj => absurd hj (Nat.not_lt_zero j))

/-- C10: for each mastery family the value recorded under the per-family
key is that of the first tier in the family's declared low-to-high order
that is selected — an order-dependent first match, not a maximum. -/
theorem mastery_first_tier_wins (fm : PMap) (sel : List String) :
    (∀ pre kv post, ADV_MASTERY = pre ++ kv :: post → kv.1 ∈ sel →
      (∀ kv' ∈ pre, kv'.1 ∉ sel) →
      getKey (resolve_final fm sel) "adv_mastery" = some kv.2) ∧
    (∀ pre kv post, BIRTH_MASTERY = pre ++ kv :: post → kv.1 ∈ sel →
      (∀ kv' ∈ pre, kv'.1 ∉ sel) →
      getKey (resolve_final fm sel) "birth_mastery" = some kv.2) ∧
    (∀ pre kv post, REBORN_MASTERY = pre ++ kv :: post → kv.1 ∈ sel →
      (∀ kv' ∈ pre, kv'.1 ∉ sel) →
      getKey (resolve_final fm sel) "reborn_mastery" = some kv.2) := by
  refine ⟨?_, ?_, ?_⟩
  · intro pre kv post hfam hsel hpre
    simp only [resolve_final]
    rw [getKey_set_mastery_ne _ _ _ _ (by decide),
      getKey_set_mastery_ne _ _ _ _ (by decide)]
    apply getKey_set_mastery_hit
    rw [hfam]
    exact first_tier_first_match sel pre kv post hsel hpre
  · intro pre kv post hfam hsel hpre
    simp only [resolve_final]
    rw [getKey_set_mastery_ne _ _ _ _ (by decide)]
    apply getKey_set_mastery_hit
    rw [hfam]
    exact first_tier_first_match sel pre kv post hsel hpre
  · intro pre kv post hfam hsel hpre
    simp only [resolve_final]
    apply getKey_set_mastery_hit
    rw [hfam]
    exact first_tier_first_match sel pre kv post hsel hpre

theorem mastery_first_tier_wins_witness :
    getKey (resolve_final [] ["adv_2", "adv_4", "birth_3", "reborn_1"])
      "adv_mastery" = some 3 :=
  (mastery_first_tier_wins [] ["adv_2", "adv_4", "birth_3", "reborn_1"]).1
    [("adv_1", 1)] ("adv_2", 3) [("adv_3", 5), ("adv_4", 8)] rfl
    (by decide) (by decide)
/-- C8: in the batch and monster-table calculations the dominio
reputation entry of the supplied general map is honoured only for the
dominio content: for any other content id the full result is identical
to the result for the same request with the entry removed from the
supplied map, while for the dominio content the supplied value is a
summand of B_general. -/
theorem dominio_reputation_gating (cid : String) (drop_ids : List String)
    (items : String → Option Item) (monsters : List String)
    (drops_data : List (String × (String → ℚ))) (gm fm : PMap)
    (sel : List String) (v : ℚ) :
    (cid ≠ "dominio" →
      calculate_all_drops cid drop_ids items gm fm sel =
        calculate_all_drops cid drop_ids items
          (delKey gm "dominio_reputation") fm sel ∧
      calculate_monster_table cid monsters drops_data items gm fm sel =
        calculate_monster_table cid monsters drops_data items
          (delKey gm "dominio_reputation") fm sel) ∧
    (getKey gm "dominio_reputation" = some v → (gm.map Prod.fst).Nodup →
      (calculate_all_drops "dominio" drop_ids items gm fm
          sel).B_general_percent =
        v + (calculate_all_drops "dominio" drop_ids items
          (delKey gm "dominio_reputation") fm sel).B_general_percent ∧
      (calculate_monster_table "dominio" monsters drops_data items gm fm
          sel).B_general_percent =
        v + (calculate_monster_table "dominio" monsters drops_data items
          (delKey gm "dominio_reputation") fm sel).B_general_percent) := by
  have hks : ∀ kv ∈ GENERAL_CONS, "dominio_reputation" ≠ kv.1 := by decide
  have hcb : ("dominio_reputation" : String) ≠ "consumable_big" := by decide
  have hcomm : resolve_general (delKey gm "dominio_reputation") sel =
      delKey (resolve_general gm sel) "dominio_reputation" :=
    (delKey_resolve_general_comm gm sel hcb hks).symm
  constructor
  · intro hcid
    have e : gate_dominio cid (resolve_general gm sel) =
        gate_dominio cid
          (resolve_general (delKey gm "dominio_reputation") sel) := by
      rw [hcomm, gate_dominio, gate_dominio, if_neg hcid, if_neg hcid,
        delKey_delKey]
    constructor
    · simp only [calculate_all_drops, e]
    · simp only [calculate_monster_table, e]
  · intro hv hnd
    have hpres : getKey (resolve_general gm sel) "dominio_reputation"
        = some v := by
      rw [getKey_resolve_general_outside gm sel hcb hks]
      exact hv
    have hnd' := nodup_keys_resolve_general gm sel hnd
    have hsum : sumVals (resolve_general gm sel) =
        v + sumVals (delKey (resolve_general gm sel) "dominio_reputation") :=
      sumVals_of_getKey_some hnd' hpres
    have egate : ∀ m : PMap, gate_dominio "dominio" m = m := fun m => if_pos rfl
    constructor
    · show sumVals (gate_dominio "dominio" (resolve_general gm sel)) =
        v + sumVals (gate_dominio "dominio"
          (resolve_general (delKey gm "dominio_reputation") sel))
      rw [egate, egate, hcomm]
      exact hsum
    · show sumVals (gate_dominio "dominio" (resolve_general gm sel)) =
        v + sumVals (gate_dominio "dominio"
          (resolve_general (delKey gm "dominio_reputation") sel))
      rw [egate, egate, hcomm]
      exact hsum

theorem dominio_reputation_gating_witness :
    calculate_all_drops "floresta" ["eye"]
        (fun _ => some (Item.mk "Eye" 10 false))
        [("dominio_reputation", 50)] [] [] =
      calculate_all_drops "floresta" ["eye"]
        (fun _ => some (Item.mk "Eye" 10 false))
        (delKey [("dominio_reputation", 50)] "dominio_reputation") [] [] ∧
    (calculate_all_drops "dominio" ["eye"]
        (fun _ => some (Item.mk "Eye" 10 false))
        [("dominio_reputation", 50)] [] []).B_general_percent =
      50 + (calculate_all_drops "dominio" ["eye"]
        (fun _ => some (Item.mk "Eye" 10 false))
        (delKey [("dominio_reputation", 50)] "dominio_reputation")
        [] []).B_general_percent := by
  have h := dominio_reputation_gating "floresta" ["eye"]
    (fun _ => some (Item.mk "Eye" 10 false))
    [] [] [("dominio_reputation", 50)] [] [] 50
  exact ⟨(h.1 (by decide)).1, (h.2 rfl (by decide)).1⟩
end DropSim
